import Mathlib

set_option maxHeartbeats 1000000

/-!
Formal model of the mlx-lm RecurrentGemma implementation
(`src/mlx_lm/models/recurrent_gemma.py`) and of its training script
(`src/mlx_lm/pt.py`).

Tensors are modelled as curried functions over `Fin`-indexed batch and time
axes, with an arbitrary index type for the channel axis where convenient.
Float arithmetic is modelled exactly: over `ℚ` (or a commutative ring) where
the code performs pure ring arithmetic, and over `ℝ` where the code uses
`exp`, `sqrt`, `sigmoid` and friends.  Variable-length time axes (the conv1d
cache) are modelled as lists of frames, so that Python's negative-index
slicing semantics can be expressed faithfully.
-/

section RnnScan

variable {α : Type} [CommRing α] {B L : ℕ} {ι : Type}

/-- Hidden state of the linear-mode loop of `rnn_scan` after `t` loop steps:
`h_t = a[:, t] * h_(t-1) + x[:, t]`, starting from `h0`.  Steps beyond the
sequence length leave the state unchanged (the Python loop runs exactly
`x.shape[1]` times). -/
def scanHidden (x a : Fin B → Fin L → ι → α) (h0 : Fin B → ι → α) : ℕ → Fin B → ι → α
  | 0 => h0
  | t + 1 => fun b d =>
      if h : t < L then
        a b ⟨t, h⟩ d * scanHidden x a h0 t b d + x b ⟨t, h⟩ d
      else
        scanHidden x a h0 t b d

/-- `rnn_scan(x, a, h0)` from `recurrent_gemma.py`.  For `x.shape[1] == 1`
("sampling mode") it returns `(x, x[:, 0])` when `h0 is None` and
`(a * h0[:, None] + x, y[:, -1])` otherwise; in the general case
("linear mode") it runs the loop `h_t = a[:, t] * h_t + x[:, t]`,
`y[:, t] = h_t`, with `h0` defaulting to zeros. -/
def rnn_scan (x a : Fin B → Fin L → ι → α) (h0 : Option (Fin B → ι → α)) :
    (Fin B → Fin L → ι → α) × (Fin B → ι → α) :=
  if hL : L = 1 then
    match h0 with
    | none => (x, fun b d => x b ⟨0, by omega⟩ d)
    | some h =>
      let y : Fin B → Fin L → ι → α := fun b t d => a b t d * h b d + x b t d
      (y, fun b d => y b ⟨L - 1, by omega⟩ d)
  else
    (fun b t d => scanHidden x a (h0.getD fun _ _ => 0) ((t : ℕ) + 1) b d,
     scanHidden x a (h0.getD fun _ _ => 0) L)

/-- The sampling-mode branch of `rnn_scan` (the `x.shape[1] == 1` case),
as a standalone function. -/
def rnn_scan_sampling (x a : Fin B → Fin 1 → ι → α) (h0 : Option (Fin B → ι → α)) :
    (Fin B → Fin 1 → ι → α) × (Fin B → ι → α) :=
  match h0 with
  | none => (x, fun b d => x b 0 d)
  | some h =>
    let y : Fin B → Fin 1 → ι → α := fun b t d => a b t d * h b d + x b t d
    (y, fun b d => y b 0 d)

/-- The linear-mode branch of `rnn_scan` (the general loop), as a standalone
function defined for every sequence length. -/
def rnn_scan_linear (x a : Fin B → Fin L → ι → α) (h0 : Option (Fin B → ι → α)) :
    (Fin B → Fin L → ι → α) × (Fin B → ι → α) :=
  (fun b t d => scanHidden x a (h0.getD fun _ _ => 0) ((t : ℕ) + 1) b d,
   scanHidden x a (h0.getD fun _ _ => 0) L)

lemma scanHidden_succ (x a : Fin B → Fin L → ι → α) (h0 : Fin B → ι → α)
    (t : Fin L) (b : Fin B) (d : ι) :
    scanHidden x a h0 ((t : ℕ) + 1) b d =
      a b t d * scanHidden x a h0 (t : ℕ) b d + x b t d := by
  simp [scanHidden, t.isLt]

end RnnScan

/-- Statement that `rnn_scan` satisfies the gated linear recurrence
`y[:, t] = a[:, t] * h_(t-1) + x[:, t]` with `h_(-1) = h0` (zeros when
`h0 = none`) and that the returned state equals `y[:, L-1]`. -/
def RnnScanSpec (B L D : ℕ) (hL : 0 < L) (x a : Fin B → Fin L → Fin D → ℚ)
    (h0 : Option (Fin B → Fin D → ℚ)) : Prop :=
  (∀ (b : Fin B) (t : Fin L) (d : Fin D),
      (rnn_scan x a h0).1 b t d =
        a b t d *
            (if _ht : (t : ℕ) = 0 then (h0.getD fun _ _ => 0) b d
             else (rnn_scan x a h0).1 b
                ⟨(t : ℕ) - 1, Nat.lt_of_le_of_lt (Nat.sub_le _ _) t.isLt⟩ d) +
          x b t d) ∧
  ∀ (b : Fin B) (d : Fin D),
      (rnn_scan x a h0).2 b d =
        (rnn_scan x a h0).1 b ⟨L - 1, Nat.sub_lt hL Nat.one_pos⟩ d

/-- Claim C1: for every 3-dimensional input `x` of shape `(B, L, D)` with
`L ≥ 1`, coefficients `a` of the same shape, and initial state `h0`
(`none`, taken as zeros, or a `(B, D)` array), `rnn_scan` returns `(y, h)`
with `y[:, t] = a[:, t] * h_(t-1) + x[:, t]`, `h_(-1) = h0`, and `h`
equal to the final hidden state `y[:, L-1]`. -/
theorem rnn_scan_recurrence (B L D : ℕ) (hL : 0 < L)
    (x a : Fin B → Fin L → Fin D → ℚ) (h0 : Option (Fin B → Fin D → ℚ)) :
    RnnScanSpec B L D hL x a h0 := by
  unfold RnnScanSpec
  by_cases hL1 : L = 1
  · subst hL1
    cases h0 with
    | none =>
      constructor
      · intro b t d
        have ht : (t : ℕ) = 0 := by have := t.isLt; omega
        simp [rnn_scan, ht]
      · intro b d
        simp [rnn_scan]
    | some h =>
      constructor
      · intro b t d
        have ht : (t : ℕ) = 0 := by have := t.isLt; omega
        simp [rnn_scan, ht]
      · intro b d
        simp [rnn_scan]
  · constructor
    · intro b t d
      simp only [rnn_scan, dif_neg hL1]
      rw [scanHidden_succ]
      by_cases ht : (t : ℕ) = 0
      · rw [dif_pos ht, ht]
        simp [scanHidden]
      · rw [dif_neg ht]
        have htt : ((t : ℕ) - 1) + 1 = (t : ℕ) := by omega
        rw [htt]
    · intro b d
      simp only [rnn_scan, dif_neg hL1]
      have hLL : (L - 1) + 1 = L := by omega
      rw [hLL]

/-- Concrete instance of claim C1's theorem at `B = 1`, `L = 2`, `D = 1`. -/
theorem rnn_scan_recurrence_witness :
    0 < 2 ∧
      RnnScanSpec 1 2 1 (by decide) (fun _ _ _ => (3 : ℚ)) (fun _ _ _ => (2 : ℚ)) none :=
  ⟨by decide, rnn_scan_recurrence 1 2 1 (by decide) _ _ _⟩

/-- Claim C7: at sequence length 1, the sampling-mode branch of `rnn_scan`
returns exactly the pair the general linear-scan branch would produce, and
`rnn_scan` itself dispatches to the sampling branch. -/
theorem rnn_scan_modes_agree (B D : ℕ) (x a : Fin B → Fin 1 → Fin D → ℚ)
    (h0 : Option (Fin B → Fin D → ℚ)) :
    rnn_scan_sampling x a h0 = rnn_scan_linear x a h0 ∧
    rnn_scan x a h0 = rnn_scan_sampling x a h0 := by
  constructor
  · cases h0 with
    | none =>
      rw [Prod.ext_iff]
      constructor
      · funext b t d
        have ht : t = 0 := Subsingleton.elim _ _
        subst ht
        show x b 0 d = scanHidden x a (fun _ _ => 0) (((0 : Fin 1) : ℕ) + 1) b d
        rw [scanHidden_succ]
        simp [scanHidden]
      · funext b d
        show x b 0 d = scanHidden x a (fun _ _ => 0) (((0 : Fin 1) : ℕ) + 1) b d
        rw [scanHidden_succ]
        simp [scanHidden]
    | some h =>
      rw [Prod.ext_iff]
      constructor
      · funext b t d
        have ht : t = 0 := Subsingleton.elim _ _
        subst ht
        show a b 0 d * h b d + x b 0 d =
          scanHidden x a ((some h).getD fun _ _ => 0) (((0 : Fin 1) : ℕ) + 1) b d
        rw [scanHidden_succ]
        simp [scanHidden]
      · funext b d
        show a b 0 d * h b d + x b 0 d =
          scanHidden x a ((some h).getD fun _ _ => 0) (((0 : Fin 1) : ℕ) + 1) b d
        rw [scanHidden_succ]
        simp [scanHidden]
  · cases h0 <;> rfl

/-! ### The training script `pt.py` -/

/-- Rows of a flat list reshaped to rows of width `w` (numpy
`reshape(samples, -1)` on a list whose length is a multiple of `w`). -/
def reshapeRows (w : ℕ) (l : List ℤ) : List (List ℤ) :=
  (List.range (l.length / w)).map fun r => (l.drop (r * w)).take w

/-- `to_samples(context_size, dataset)` from `pt.py`: window size is
`context_size + 1` (inputs plus one target), the dataset is truncated to
`samples * window_size` tokens and reshaped to `(samples, window_size)`. -/
def to_samples (context_size : ℕ) (dataset : List ℤ) : List (List ℤ) :=
  let window_size := context_size + 1
  let samples := dataset.length / window_size
  reshapeRows window_size (dataset.take (samples * window_size))

lemma getD_map_range {γ : Type} (n : ℕ) (f : ℕ → γ) (d : γ) (i : ℕ) (hi : i < n) :
    ((List.range n).map f).getD i d = f i := by
  rw [List.getD_eq_getElem?_getD]
  simp [List.getElem?_map, List.getElem?_range, hi]

/-- Statement that `to_samples` produces `⌊n / (c+1)⌋` rows, each of length
`c + 1`, row `r` column `j` holding token `r * (c+1) + j` of the dataset. -/
def ToSamplesSpec (c : ℕ) (d : List ℤ) : Prop :=
  (to_samples c d).length = d.length / (c + 1) ∧
  (∀ r, r < d.length / (c + 1) → ((to_samples c d).getD r []).length = c + 1) ∧
  ∀ r j, r < d.length / (c + 1) → j < c + 1 →
      ((to_samples c d).getD r []).getD j 0 = d.getD (r * (c + 1) + j) 0

/-- Claim C6: for every token list and context size `c`, `to_samples`
returns `⌊n / (c+1)⌋` consecutive non-overlapping windows of length
`c + 1`, dropping the trailing `n mod (c+1)` tokens. -/
theorem to_samples_spec (c : ℕ) (d : List ℤ) : ToSamplesSpec c d := by
  set w := c + 1 with hw
  set s := d.length / w with hs
  have hw0 : 0 < w := by omega
  have hsw : s * w ≤ d.length := by
    rw [hs]
    exact Nat.div_mul_le_self _ _
  have hlen : (d.take (s * w)).length = s * w := by
    rw [List.length_take]
    omega
  have hts : to_samples c d =
      (List.range ((d.take (s * w)).length / w)).map
        fun r => ((d.take (s * w)).drop (r * w)).take w := rfl
  have hdiv : (d.take (s * w)).length / w = s := by
    rw [hlen]
    exact Nat.mul_div_left s hw0
  rw [hdiv] at hts
  refine ⟨?_, ?_, ?_⟩
  · rw [hts, List.length_map, List.length_range]
  · intro r hr
    have hrw : (r + 1) * w ≤ s * w := Nat.mul_le_mul_right _ hr
    rw [hts, getD_map_range _ _ _ _ hr]
    rw [List.length_take, List.length_drop, hlen]
    have : r * w + w ≤ s * w := by
      calc r * w + w = (r + 1) * w := by ring
        _ ≤ s * w := hrw
    omega
  · intro r j hr hj
    have hidx : r * w + j < s * w := by
      have hrw : (r + 1) * w ≤ s * w := Nat.mul_le_mul_right _ hr
      have : r * w + w ≤ s * w := by
        calc r * w + w = (r + 1) * w := by ring
          _ ≤ s * w := hrw
      omega
    rw [hts, getD_map_range _ _ _ _ hr]
    rw [List.getD_eq_getElem?_getD, List.getD_eq_getElem?_getD]
    rw [List.getElem?_take, if_pos hj, List.getElem?_drop]
    rw [List.getElem?_take, if_pos (by omega : r * w + j < s * w)]

/-- Concrete instance of claim C6's theorem: context size 1 on a 5-token
dataset gives 2 rows; row 1, column 0 is token 2. -/
theorem to_samples_spec_witness :
    1 < ([10, 20, 30, 40, 50] : List ℤ).length / (1 + 1) ∧ 0 < 1 + 1 ∧
      ((to_samples 1 [10, 20, 30, 40, 50]).getD 1 []).getD 0 0 =
        ([10, 20, 30, 40, 50] : List ℤ).getD (1 * (1 + 1) + 0) 0 :=
  ⟨by decide, by decide,
    (to_samples_spec 1 [10, 20, 30, 40, 50]).2.2 1 0 (by decide) (by decide)⟩

/-- Learning rate set by the training loop before gradient step `it`:
`min(1, it / args.lr_warmup) * args.learning_rate` (`pt.py`, line 93). -/
def lr_schedule (lr_warmup : ℕ) (learning_rate : ℚ) (it : ℕ) : ℚ :=
  min 1 ((it : ℚ) / (lr_warmup : ℚ)) * learning_rate

/-- Observable state-changing events of one iteration of the training loop in
`pt.py` `main`: the learning-rate assignment, the gradient step, and, when
`save_every > 0` and `(it + 1) % save_every == 0`, an intermediate
checkpoint written for step `it + 1`.  Loss reporting and validation
evaluation only print and are not modelled. -/
inductive TrainEvent
  | setLR (lr : ℚ)
  | gradStep
  | saveCheckpoint (step : ℕ)
  | saveFinal
deriving DecidableEq

/-- Events of training iteration `it` (loop body of `pt.py` `main`). -/
def iterationEvents (save_every lr_warmup : ℕ) (learning_rate : ℚ) (it : ℕ) :
    List TrainEvent :=
  [TrainEvent.setLR (lr_schedule lr_warmup learning_rate it), TrainEvent.gradStep] ++
    (if 0 < save_every ∧ (it + 1) % save_every = 0 then
      [TrainEvent.saveCheckpoint (it + 1)]
    else [])

/-- Full event trace of `pt.py` `main`: `num_iters` loop iterations followed
by the unconditional write of `final.safetensors`. -/
def trainEvents (num_iters save_every lr_warmup : ℕ) (learning_rate : ℚ) :
    List TrainEvent :=
  ((List.range num_iters).map (iterationEvents save_every lr_warmup learning_rate)).flatten
    ++ [TrainEvent.saveFinal]

/-- Statement of the warmup schedule: the rate is `(it / warmup) * lr` for
`it < warmup` (in particular `0` at `it = 0`), exactly `lr` from
`it = warmup` on, and the assignment precedes the gradient step in every
iteration of the loop. -/
def LrScheduleSpec (save_every lr_warmup : ℕ) (learning_rate : ℚ) : Prop :=
  lr_schedule lr_warmup learning_rate 0 = 0 ∧
  (∀ it, it < lr_warmup →
      lr_schedule lr_warmup learning_rate it =
        ((it : ℚ) / (lr_warmup : ℚ)) * learning_rate) ∧
  (∀ it, lr_warmup ≤ it → lr_schedule lr_warmup learning_rate it = learning_rate) ∧
  ∀ it, (iterationEvents save_every lr_warmup learning_rate it).take 2 =
      [TrainEvent.setLR (lr_schedule lr_warmup learning_rate it), TrainEvent.gradStep]

/-- Claim C9: before gradient step `it` the loop sets the learning rate to
`min(1, it / lr_warmup) * learning_rate`, which ramps linearly from 0 over
the first `lr_warmup` iterations and stays at `learning_rate` afterwards. -/
theorem lr_warmup_schedule (save_every lr_warmup : ℕ) (learning_rate : ℚ)
    (hw : 0 < lr_warmup) : LrScheduleSpec save_every lr_warmup learning_rate := by
  have hwq : (0 : ℚ) < (lr_warmup : ℚ) := by exact_mod_cast hw
  refine ⟨?_, ?_, ?_, ?_⟩
  · simp [lr_schedule]
  · intro it hit
    unfold lr_schedule
    rw [min_eq_right]
    rw [div_le_one hwq]
    exact_mod_cast Nat.le_of_lt hit
  · intro it hit
    unfold lr_schedule
    rw [min_eq_left, one_mul]
    rw [le_div_iff₀ hwq, one_mul]
    exact_mod_cast hit
  · intro it
    rfl

/-- Concrete instance of claim C9's theorem at `lr_warmup = 2`. -/
theorem lr_warmup_schedule_witness :
    0 < 2 ∧ LrScheduleSpec 1000 2 (3 / 10000) :=
  ⟨by decide, lr_warmup_schedule 1000 2 (3 / 10000) (by decide)⟩

/-- Claim C10: an intermediate checkpoint for step `k = it + 1` appears in
the training trace exactly when `save_every > 0`, `k` is a multiple of
`save_every` and `1 ≤ k ≤ num_iters` (so never when `save_every = 0`);
within an iteration any checkpoint write follows the gradient step; and the
final checkpoint write is the last event of every run. -/
theorem checkpoint_schedule (num_iters save_every lr_warmup : ℕ) (learning_rate : ℚ) :
    (∀ k, TrainEvent.saveCheckpoint k ∈ trainEvents num_iters save_every lr_warmup learning_rate ↔
        0 < save_every ∧ k % save_every = 0 ∧ 1 ≤ k ∧ k ≤ num_iters) ∧
    (∀ it, iterationEvents save_every lr_warmup learning_rate it =
          [TrainEvent.setLR (lr_schedule lr_warmup learning_rate it), TrainEvent.gradStep] ∨
        iterationEvents save_every lr_warmup learning_rate it =
          [TrainEvent.setLR (lr_schedule lr_warmup learning_rate it), TrainEvent.gradStep,
            TrainEvent.saveCheckpoint (it + 1)]) ∧
    (trainEvents num_iters save_every lr_warmup learning_rate).getLast? =
      some TrainEvent.saveFinal := by
  refine ⟨?_, ?_, ?_⟩
  · intro k
    constructor
    · intro hmem
      rw [trainEvents, List.mem_append] at hmem
      rcases hmem with hmem | hmem
      · rw [List.mem_flatten] at hmem
        obtain ⟨l, hl, hkl⟩ := hmem
        rw [List.mem_map] at hl
        obtain ⟨it, hit, rfl⟩ := hl
        rw [List.mem_range] at hit
        rw [iterationEvents] at hkl
        by_cases hc : 0 < save_every ∧ (it + 1) % save_every = 0
        · rw [if_pos hc] at hkl
          simp at hkl
          subst hkl
          exact ⟨hc.1, hc.2, by omega, by omega⟩
        · rw [if_neg hc] at hkl
          simp at hkl
      · simp at hmem
    · rintro ⟨hse, hmod, hk1, hkn⟩
      rw [trainEvents, List.mem_append]
      left
      rw [List.mem_flatten]
      refine ⟨iterationEvents save_every lr_warmup learning_rate (k - 1), ?_, ?_⟩
      · rw [List.mem_map]
        exact ⟨k - 1, by rw [List.mem_range]; omega, rfl⟩
      · rw [iterationEvents, if_pos ⟨hse, by rw [show k - 1 + 1 = k by omega]; exact hmod⟩]
        simp [show k - 1 + 1 = k by omega]
  · intro it
    rw [iterationEvents]
    by_cases hc : 0 < save_every ∧ (it + 1) % save_every = 0
    · right; rw [if_pos hc]; rfl
    · left; rw [if_neg hc]; rfl
  · exact List.getLast?_concat _

/-! ### Model configuration, layer stacking, caches and the mask bug -/

/-- Configuration fields of `ModelArgs` used by the embedded parts of
`recurrent_gemma.py` (after `__post_init__` has resolved `block_types`). -/
structure GriffinConfig where
  hidden_size : ℕ
  intermediate_size : ℕ
  num_attention_heads : ℕ
  num_hidden_layers : ℕ
  attention_window_size : ℕ
  block_types : List String

/-- Resolution of `ModelArgs.__post_init__`: `block_types` falls back to
`_block_types` when absent (the 2B and 9B checkpoints name it differently). -/
def resolveBlockTypes (block_types _block_types : Option (List String)) :
    Option (List String) :=
  match block_types with
  | none => _block_types
  | some bt => some bt

/-- The temporal block constructed by `ResidualBlock.__init__`: a
`RecurrentBlock(width, num_heads, lru_width, conv1d_temporal_width)` for
`temporal_block_type == "recurrent"`, otherwise a
`LocalAttentionBlock(width, num_heads, window_size)`. -/
inductive TemporalBlockCfg
  | recurrentBlock (width num_heads lru_width conv1d_temporal_width : ℕ)
  | localAttentionBlock (width num_heads window_size : ℕ)
deriving DecidableEq

/-- The fields of a `ResidualBlock` that determine its temporal mixing
layer. -/
structure ResidualBlockCfg where
  temporal_block_type : String
  temporal_block : TemporalBlockCfg
deriving DecidableEq

/-- `ResidualBlock.__init__`: Griffin passes `lru_width=None`, so the
recurrent block's `lru_width or width` is `width`, and
`conv1d_temporal_width` keeps its default 4. -/
def mkResidualBlock (width num_heads attention_window_size : ℕ)
    (temporal_block_type : String) : ResidualBlockCfg :=
  { temporal_block_type := temporal_block_type,
    temporal_block :=
      if temporal_block_type = "recurrent" then
        TemporalBlockCfg.recurrentBlock width num_heads width 4
      else
        TemporalBlockCfg.localAttentionBlock width num_heads attention_window_size }

/-- The layer list built by `Griffin.__init__`: layer `i` gets
`temporal_block_type = block_types[i % len(block_types)]`. -/
def griffinLayers (c : GriffinConfig) : List ResidualBlockCfg :=
  (List.range c.num_hidden_layers).map fun i =>
    mkResidualBlock c.hidden_size c.num_attention_heads c.attention_window_size
      (c.block_types.getD (i % c.block_types.length) "")

/-- Statement that layer `i` of the Griffin stack has temporal block type
`block_types[i % len(block_types)]` and accordingly carries a recurrent
block or a local attention block with the configured sizes. -/
def GriffinLayersSpec (c : GriffinConfig) : Prop :=
  (griffinLayers c).length = c.num_hidden_layers ∧
  ∀ i, i < c.num_hidden_layers →
      ((griffinLayers c).getD i (mkResidualBlock 0 0 0 "")).temporal_block_type =
          c.block_types.getD (i % c.block_types.length) "" ∧
      ((griffinLayers c).getD i (mkResidualBlock 0 0 0 "")).temporal_block =
          (if c.block_types.getD (i % c.block_types.length) "" = "recurrent" then
            TemporalBlockCfg.recurrentBlock c.hidden_size c.num_attention_heads
              c.hidden_size 4
          else
            TemporalBlockCfg.localAttentionBlock c.hidden_size c.num_attention_heads
              c.attention_window_size)

/-- Claim C5: for every configuration with a non-empty `block_types` list,
layer `i` of the Griffin model is built with
`temporal_block_type = block_types[i mod len(block_types)]`, so the stack
interleaves recurrent and attention blocks in the repeating pattern given by
`block_types`. -/
theorem griffin_layer_pattern (c : GriffinConfig) (_hbt : c.block_types ≠ []) :
    GriffinLayersSpec c := by
  refine ⟨?_, ?_⟩
  · rw [griffinLayers, List.length_map, List.length_range]
  · intro i hi
    rw [griffinLayers, getD_map_range _ _ _ _ hi]
    exact ⟨rfl, rfl⟩

/-- Concrete instance of claim C5's theorem on a 3-layer config with the
RecurrentGemma pattern `["recurrent", "recurrent", "attention"]`. -/
theorem griffin_layer_pattern_witness :
    (GriffinConfig.mk 8 16 2 5 13 ["recurrent", "recurrent", "attention"]).block_types ≠ [] ∧
      GriffinLayersSpec (GriffinConfig.mk 8 16 2 5 13 ["recurrent", "recurrent", "attention"]) :=
  ⟨by decide,
    griffin_layer_pattern (GriffinConfig.mk 8 16 2 5 13 ["recurrent", "recurrent", "attention"])
      (by decide)⟩

/-- Per-layer cache entry made by `Model.make_cache`: a `MambaCache()` or a
`RotatingKVCache(max_size=...)`.  (The cache classes live in
`models/cache.py`, outside the given sources; only the constructor and its
`max_size` argument are modelled, nominally.) -/
inductive CacheEntry
  | mamba
  | rotatingKV (max_size : ℕ)
deriving DecidableEq

/-- `Model.make_cache`: one entry per layer, `MambaCache()` for recurrent
layers and `RotatingKVCache(max_size=args.attention_window_size)` for the
others. -/
def make_cache (c : GriffinConfig) : List CacheEntry :=
  (griffinLayers c).map fun layer =>
    if layer.temporal_block_type = "recurrent" then CacheEntry.mamba
    else CacheEntry.rotatingKV c.attention_window_size

/-- Statement that `make_cache` returns exactly one entry per layer, in
layer order: `MambaCache` for layers whose block type is `"recurrent"`,
otherwise `RotatingKVCache` with `max_size = attention_window_size`. -/
def MakeCacheSpec (c : GriffinConfig) : Prop :=
  (make_cache c).length = c.num_hidden_layers ∧
  ∀ i, i < c.num_hidden_layers →
      (make_cache c).getD i CacheEntry.mamba =
        (if c.block_types.getD (i % c.block_types.length) "" = "recurrent" then
          CacheEntry.mamba
        else CacheEntry.rotatingKV c.attention_window_size)

/-- Claim C4: for every configuration (with a non-empty `block_types`),
`Model.make_cache` returns exactly one cache entry per layer in layer
order: a `MambaCache` for each recurrent layer and a `RotatingKVCache`
whose `max_size` is the configured `attention_window_size` for every other
layer. -/
theorem make_cache_layout (c : GriffinConfig) (_hbt : c.block_types ≠ []) :
    MakeCacheSpec c := by
  have hmc : make_cache c = (List.range c.num_hidden_layers).map fun i =>
      if (mkResidualBlock c.hidden_size c.num_attention_heads c.attention_window_size
            (c.block_types.getD (i % c.block_types.length) "")).temporal_block_type =
          "recurrent" then
        CacheEntry.mamba
      else CacheEntry.rotatingKV c.attention_window_size := by
    rw [make_cache, griffinLayers, List.map_map]
    rfl
  refine ⟨?_, ?_⟩
  · rw [hmc, List.length_map, List.length_range]
  · intro i hi
    rw [hmc, getD_map_range _ _ _ _ hi]
    rfl

/-- Concrete instance of claim C4's theorem: the 3-layer mixed config gets
`[MambaCache, MambaCache, RotatingKVCache 13]`. -/
theorem make_cache_layout_witness :
    (GriffinConfig.mk 8 16 2 3 13 ["recurrent", "recurrent", "attention"]).block_types ≠ [] ∧
      MakeCacheSpec (GriffinConfig.mk 8 16 2 3 13 ["recurrent", "recurrent", "attention"]) ∧
      make_cache (GriffinConfig.mk 8 16 2 3 13 ["recurrent", "recurrent", "attention"]) =
        [CacheEntry.mamba, CacheEntry.mamba, CacheEntry.rotatingKV 13] :=
  ⟨by decide,
    make_cache_layout (GriffinConfig.mk 8 16 2 3 13 ["recurrent", "recurrent", "attention"])
      (by decide),
    by decide⟩

/-- The mask setup of `Griffin.__call__` (lines 399-410): the first loop
binds the Python local `mask_cache` only for layers whose
`temporal_block_type` is not `"recurrent"`; when `mask is None` the code
then evaluates `create_attention_mask(x, mask_cache)`, which raises
`UnboundLocalError` if no layer bound `mask_cache`.  Only the control flow
deciding between normal completion and that error is modelled; the mask
value itself is framework output. -/
def griffin_mask_resolution (c : GriffinConfig) (maskGiven : Bool) : Except String Unit :=
  let mask_cache_bound :=
    (griffinLayers c).any fun block => block.temporal_block_type != "recurrent"
  if maskGiven then Except.ok ()
  else if mask_cache_bound then Except.ok ()
  else Except.error "UnboundLocalError: local variable mask_cache referenced before assignment"

/-- Claim C2 (refuting theorem): with `block_types = ["recurrent"]` (every
layer recurrent) and `mask=None`, `Griffin.__call__` raises
`UnboundLocalError` from the repository's own code rather than completing,
while the same call with at least one attention layer completes. -/
theorem griffin_all_recurrent_mask_error :
    griffin_mask_resolution (GriffinConfig.mk 4 8 1 2 13 ["recurrent"]) false =
        Except.error
          "UnboundLocalError: local variable mask_cache referenced before assignment" ∧
      griffin_mask_resolution (GriffinConfig.mk 4 8 1 2 13 ["recurrent", "attention"]) false =
        Except.ok () ∧
      griffin_mask_resolution (GriffinConfig.mk 4 8 1 2 13 ["recurrent"]) true =
        Except.ok () :=
  ⟨rfl, rfl, rfl⟩

/-! ### `Conv1d.__call__` and its cache -/

section Conv1d

variable {α : Type} [CommRing α] {B K : ℕ} {ι : Type} [Fintype ι]

/-- Frame `i` of a list of frames (zero frame out of range; only in-range
indices are ever used below). -/
def frameAt (xs : List (ι → α)) (i : ℕ) : ι → α := xs.getD i fun _ => 0

/-- Python slice `l[s:]` for an integer start `s`: the start index is
`max(len(l) + s, 0)` when `s < 0`, else `s`. -/
def pySliceFrom {γ : Type} (s : ℤ) (l : List γ) : List γ :=
  if s < 0 then l.drop (l.length - min (-s).toNat l.length)
  else l.drop s.toNat

/-- The time axis fed to the convolution in `Conv1d.__call__`: the cache is
prepended when present (`mx.concatenate([cache, x], axis=1)`), otherwise the
input is left-padded with `K - 1` zero frames (`mx.pad`). -/
def conv1d_input (K : ℕ) (x : Fin B → List (ι → α))
    (cache : Option (Fin B → List (ι → α))) : Fin B → List (ι → α) :=
  fun b =>
    match cache with
    | some c => c b ++ x b
    | none => List.replicate (K - 1) (fun _ => 0) ++ x b

/-- Depthwise grouped convolution `mx.conv_general(x, weight, groups=channels)`
with weight shape `(channels, K, 1)`: output frame `t`, channel `ch` is
`Σ k, weight[ch][k] * input[t + k][ch]`; the output has
`len(input) - K + 1` frames. -/
def convOutput (K : ℕ) (w : ι → Fin K → α) (xs : List (ι → α)) : List (ι → α) :=
  (List.range (xs.length + 1 - K)).map fun t ch =>
    ∑ k : Fin K, w ch k * frameAt xs (t + (k : ℕ)) ch

/-- `Conv1d.__call__(x, cache)`: returns the biased convolution output and
the new cache `x[:, -K+1:, :]` of the padded/concatenated input. -/
def conv1d_call (K : ℕ) (w : ι → Fin K → α) (bias : ι → α)
    (x : Fin B → List (ι → α)) (cache : Option (Fin B → List (ι → α))) :
    (Fin B → List (ι → α)) × (Fin B → List (ι → α)) :=
  (fun b => (convOutput K w (conv1d_input K x cache b)).map fun f ch => f ch + bias ch,
   fun b => pySliceFrom (-(K : ℤ) + 1) (conv1d_input K x cache b))

end Conv1d

/-- Statement that the cache returned by `Conv1d.__call__` has exactly
`K - 1` frames and holds exactly the last `K - 1` frames of the
padded/concatenated input. -/
def Conv1dCacheSpec (B K : ℕ) (ι : Type) [Fintype ι] (w : ι → Fin K → ℚ)
    (bias : ι → ℚ) (x : Fin B → List (ι → ℚ))
    (cache : Option (Fin B → List (ι → ℚ))) : Prop :=
  ∀ b, ((conv1d_call K w bias x cache).2 b).length = K - 1 ∧
      (conv1d_call K w bias x cache).2 b =
        (conv1d_input K x cache b).drop ((conv1d_input K x cache b).length - (K - 1))

/-- Claim C8 (amended form): for every `Conv1d` call with `kernel_size ≥ 2`,
whether `cache` is `None` or any cache of the invariant length `K - 1`, the
returned cache holds exactly the last `K - 1` frames of the
padded/concatenated input; in particular the `K - 1` length invariant is
preserved by every call. -/
theorem conv1d_cache_inv (B K : ℕ) (ι : Type) [Fintype ι] (hK : 2 ≤ K)
    (w : ι → Fin K → ℚ) (bias : ι → ℚ) (x : Fin B → List (ι → ℚ))
    (cache : Option (Fin B → List (ι → ℚ)))
    (hc : ∀ c, cache = some c → ∀ b, (c b).length = K - 1) :
    Conv1dCacheSpec B K ι w bias x cache := by
  intro b
  have hKZ : (2 : ℤ) ≤ (K : ℤ) := by exact_mod_cast hK
  have hlen : K - 1 ≤ (conv1d_input K x cache b).length := by
    cases cache with
    | none => simp [conv1d_input]
    | some cc =>
      have hcc := hc cc rfl b
      simp [conv1d_input, hcc]
  have hslice : pySliceFrom (-(K : ℤ) + 1) (conv1d_input K x cache b) =
      (conv1d_input K x cache b).drop
        ((conv1d_input K x cache b).length - (K - 1)) := by
    rw [pySliceFrom, if_pos (by omega : -(K : ℤ) + 1 < 0)]
    congr 1
    omega
  constructor
  · show (pySliceFrom (-(K : ℤ) + 1) (conv1d_input K x cache b)).length = K - 1
    rw [hslice, List.length_drop]
    omega
  · exact hslice

/-- Concrete instance of claim C8's amended theorem at `K = 2`, one channel,
one input frame, empty cache. -/
theorem conv1d_cache_inv_witness :
    2 ≤ 2 ∧
      Conv1dCacheSpec 1 2 (Fin 1) (fun _ _ => (0 : ℚ)) (fun _ => 0)
        (fun _ => [fun _ => (7 : ℚ)]) none :=
  ⟨by decide,
    conv1d_cache_inv 1 2 (Fin 1) (by decide) _ _ _ none
      fun _ h => Option.noConfusion h⟩

/-- Claim C8 (counterexample): with `kernel_size = 1`, one input frame and
`cache=None`, the Python slice `x[:, -K+1:, :]` is `x[:, 0:, :]` (the whole
padded input), so the returned cache has 1 frame, not
`kernel_size - 1 = 0`. -/
theorem conv1d_cache_len_cex :
    ¬ (((conv1d_call (B := 1) (ι := Fin 1) 1 (fun _ _ => (0 : ℚ)) (fun _ => (0 : ℚ))
          (fun _ => [fun _ => (5 : ℚ)]) none).2 0).length = 1 - 1) := by
  intro h
  have h1 : ((conv1d_call (B := 1) (ι := Fin 1) 1 (fun _ _ => (0 : ℚ)) (fun _ => (0 : ℚ))
      (fun _ => [fun _ => (5 : ℚ)]) none).2 0).length = 1 := rfl
  rw [h1] at h
  simp at h

/-! ### `RGLRU`, `RecurrentBlock` and the recurrent layer cache -/

/-- Channel index of the RG-LRU width, kept factored as
(head, position-within-head): `width = num_heads * head_dim`, and the
`reshape`/`flatten(2, 3)` pair in `apply_block_linear` is the canonical
bijection between the flat width axis and this product. -/
abbrev LruIdx (H E : ℕ) := Fin H × Fin E

/-- `mx.sigmoid`. -/
noncomputable def sigmoid (z : ℝ) : ℝ := 1 / (1 + Real.exp (-z))

/-- `nn.softplus` (framework activation): `log(1 + exp z)`. -/
noncomputable def softplus (z : ℝ) : ℝ := Real.log (1 + Real.exp z)

/-- `nn.gelu_approx` (framework activation, modelled by the published tanh
approximation of GELU; its exact formula plays no role in the cache
structure proved below). -/
noncomputable def gelu_approx (z : ℝ) : ℝ :=
  0.5 * z * (1 + Real.tanh (Real.sqrt (2 / Real.pi) * (z + 0.044715 * z ^ 3)))

/-- `nn.Linear`: `y = x @ W.T + b` along the last axis. -/
noncomputable def linearMap {ι κ : Type} [Fintype ι] (w : κ → ι → ℝ) (bias : κ → ℝ)
    (x : ι → ℝ) : κ → ℝ :=
  fun j => (∑ i : ι, w j i * x i) + bias j

/-- The `apply_block_linear` helper of `RGLRU.__call__`: per-head batched
matrix product with the gate weights, plus bias, through a sigmoid. -/
noncomputable def apply_block_linear {B L H E : ℕ} (x : Fin B → Fin L → LruIdx H E → ℝ)
    (w : Fin H → Fin E → Fin E → ℝ) (bias : Fin H → Fin E → ℝ) :
    Fin B → Fin L → LruIdx H E → ℝ :=
  fun b t hd =>
    sigmoid ((∑ e : Fin E, x b t (hd.1, e) * w hd.1 e hd.2) + bias hd.1 hd.2)

/-- `RGLRU.__call__(x, cache)`: input and recurrence gates, the recurrence
parameter `a = exp(-8 * gate_a * softplus(recurrent_param))`, gamma
normalization `sqrt(1 - a^2)` of the gated input (with the first time step
unnormalized when there is no cache), then `rnn_scan`. -/
noncomputable def rglru_call {B L H E : ℕ} (recurrent_param : LruIdx H E → ℝ)
    (input_gate_w : Fin H → Fin E → Fin E → ℝ) (input_gate_b : Fin H → Fin E → ℝ)
    (recurrent_gate_w : Fin H → Fin E → Fin E → ℝ)
    (recurrent_gate_b : Fin H → Fin E → ℝ)
    (x : Fin B → Fin L → LruIdx H E → ℝ) (cache : Option (Fin B → LruIdx H E → ℝ)) :
    (Fin B → Fin L → LruIdx H E → ℝ) × (Fin B → LruIdx H E → ℝ) :=
  let gate_x := apply_block_linear x input_gate_w input_gate_b
  let gate_a := apply_block_linear x recurrent_gate_w recurrent_gate_b
  let log_a := fun b t d => (-8 : ℝ) * gate_a b t d * softplus (recurrent_param d)
  let a := fun b t d => Real.exp (log_a b t d)
  let a_square := fun b t d => Real.exp (2 * log_a b t d)
  let gated_x := fun b t d => x b t d * gate_x b t d
  let multiplier := fun b (t : Fin L) d =>
    if cache.isNone ∧ (t : ℕ) = 0 then (1 : ℝ) else Real.sqrt (1 - a_square b t d)
  let normalized_x := fun b t d => gated_x b t d * multiplier b t d
  rnn_scan normalized_x a cache

/-- Parameters of a `RecurrentBlock` (width `W`, `H` heads of head
dimension `E`, conv kernel width `K`). -/
structure RecurrentBlockParams (W H E K : ℕ) where
  linear_y_w : LruIdx H E → Fin W → ℝ
  linear_y_b : LruIdx H E → ℝ
  linear_x_w : LruIdx H E → Fin W → ℝ
  linear_x_b : LruIdx H E → ℝ
  linear_out_w : Fin W → LruIdx H E → ℝ
  linear_out_b : Fin W → ℝ
  conv_w : LruIdx H E → Fin K → ℝ
  conv_b : LruIdx H E → ℝ
  recurrent_param : LruIdx H E → ℝ
  input_gate_w : Fin H → Fin E → Fin E → ℝ
  input_gate_b : Fin H → Fin E → ℝ
  recurrent_gate_w : Fin H → Fin E → Fin E → ℝ
  recurrent_gate_b : Fin H → Fin E → ℝ

/-- Per-layer cache a recurrent block threads between calls, exactly as
`RecurrentBlock.__call__` uses it: slot 0 is the `conv_1d` cache (a list of
trailing input frames), slot 1 the RG-LRU hidden state.  `none` models the
Python `None` placeholder before the first call. -/
abbrev RecurrentBlockCache (B H E : ℕ) :=
  Option (Fin B → List (LruIdx H E → ℝ)) × Option (Fin B → LruIdx H E → ℝ)

/-- Sequence-major view of a `(B, L, width)` tensor as per-batch frame
lists, feeding `Conv1d`. -/
def framesOfFn {B L : ℕ} {ι : Type} (x : Fin B → Fin L → ι → ℝ) :
    Fin B → List (ι → ℝ) :=
  fun b => (List.finRange L).map fun t => x b t

/-- The x-branch of `RecurrentBlock.__call__`: `x = self.linear_x(x)`. -/
noncomputable def recurrentBlock_xbranch {B L W H E K : ℕ}
    (p : RecurrentBlockParams W H E K) (x : Fin B → Fin L → Fin W → ℝ) :
    Fin B → Fin L → LruIdx H E → ℝ :=
  fun b t => linearMap p.linear_x_w p.linear_x_b (x b t)

/-- `RecurrentBlock.__call__(x, cache)`: gelu-gated y branch, x branch
through `conv_1d` (reading and writing `cache[0]`) and `rg_lru` (reading
and writing `cache[1]`), elementwise product, output projection.  `cache`
is `[None, None]` when the Python argument is `None`. -/
noncomputable def recurrentBlock_call {B L W H E K : ℕ}
    (p : RecurrentBlockParams W H E K) (x : Fin B → Fin L → Fin W → ℝ)
    (cache : Option (RecurrentBlockCache B H E)) :
    (Fin B → Fin L → Fin W → ℝ) × RecurrentBlockCache B H E :=
  let c := cache.getD (none, none)
  let y := fun b t d => gelu_approx (linearMap p.linear_y_w p.linear_y_b (x b t) d)
  let conv_res := conv1d_call K p.conv_w p.conv_b
    (framesOfFn (recurrentBlock_xbranch p x)) c.1
  let lru_in : Fin B → Fin L → LruIdx H E → ℝ := fun b t => frameAt (conv_res.1 b) t
  let lru_res := rglru_call p.recurrent_param p.input_gate_w p.input_gate_b
    p.recurrent_gate_w p.recurrent_gate_b lru_in c.2
  (fun b t => linearMap p.linear_out_w p.linear_out_b fun d => lru_res.1 b t d * y b t d,
   (some conv_res.2, some lru_res.2))

/-- Number of state tensors stored in a two-slot cache. -/
def cachedTensorCount {σ τ : Type} (c : Option σ × Option τ) : ℕ :=
  (match c.1 with | some _ => 1 | none => 0) +
    (match c.2 with | some _ => 1 | none => 0)

/-- Statement that a recurrent block's per-layer cache after any call holds
exactly two tensors: slot 0 the cache returned by the `Conv1d` call on the
x branch, slot 1 the final hidden state returned by the RG-LRU scan. -/
def RecurrentBlockCacheSpec {B L W H E K : ℕ} (p : RecurrentBlockParams W H E K)
    (x : Fin B → Fin L → Fin W → ℝ) (cache : Option (RecurrentBlockCache B H E)) :
    Prop :=
  cachedTensorCount (recurrentBlock_call p x cache).2 = 2 ∧
  (recurrentBlock_call p x cache).2.1 =
      some (conv1d_call K p.conv_w p.conv_b (framesOfFn (recurrentBlock_xbranch p x))
        (cache.getD (none, none)).1).2 ∧
  (recurrentBlock_call p x cache).2.2 =
      some (rglru_call p.recurrent_param p.input_gate_w p.input_gate_b
        p.recurrent_gate_w p.recurrent_gate_b
        (fun (b : Fin B) (t : Fin L) => frameAt ((conv1d_call K p.conv_w p.conv_b
          (framesOfFn (recurrentBlock_xbranch p x)) (cache.getD (none, none)).1).1 b) t)
        (cache.getD (none, none)).2).2

/-- Claim C3 (amended form): every forward call through a recurrent block
reads and writes a two-slot per-layer cache — the `conv_1d` trailing-frame
buffer and the RG-LRU hidden state — so exactly two cached state tensors,
not one, are carried between calls. -/
theorem recurrent_block_cache_two_slots {B L W H E K : ℕ}
    (p : RecurrentBlockParams W H E K) (x : Fin B → Fin L → Fin W → ℝ)
    (cache : Option (RecurrentBlockCache B H E)) :
    RecurrentBlockCacheSpec p x cache :=
  ⟨rfl, rfl, rfl⟩

/-- All-zero parameters of a tiny recurrent block (width 1, one head, head
dimension 1, conv kernel width 4 as in the repository). -/
noncomputable def pZero : RecurrentBlockParams 1 1 1 4 :=
  ⟨fun _ _ => 0, fun _ => 0, fun _ _ => 0, fun _ => 0, fun _ _ => 0, fun _ => 0,
    fun _ _ => 0, fun _ => 0, fun _ => 0, fun _ _ _ => 0, fun _ _ => 0,
    fun _ _ _ => 0, fun _ _ => 0⟩

/-- Claim C3 (counterexample): already the first call (Python cache
argument `None`) through a concrete tiny recurrent block stores two cached
state tensors, not exactly one. -/
theorem recurrent_block_single_slot_cex :
    ¬ (cachedTensorCount
        ((recurrentBlock_call pZero (fun (_ : Fin 1) (_ : Fin 1) (_ : Fin 1) => (0 : ℝ))
          none).2) = 1) := by
  intro h
  have h2 : cachedTensorCount
      ((recurrentBlock_call pZero (fun (_ : Fin 1) (_ : Fin 1) (_ : Fin 1) => (0 : ℝ))
        none).2) = 2 := rfl
  rw [h2] at h
  simp at h
